import Mathlib

/-!
# Verification of the north2md content-acquisition layer

Shallow embedding of the cookie store (`src/cookie.go`), the retrying fetch
engine (`src/fetcher.go`) and the resumable gofile downloader
(`src/gofile.go`), together with proofs about their behaviour.

File-system and network effects are modelled by explicit state passing: a
function that in Go reads or writes files takes and returns a model of the
file system, and a function that performs an HTTP request takes the response
(or the per-attempt outcome sequence) as an argument.  Byte strings are
modelled as `List Nat`, `int64` sizes as `Int`, and instants (`time.Time`)
as `Option Nat` where `none` models the zero time.
-/

namespace North2MD

/-! ## Cookie data model (src/types.go) -/

/-- `CookieEntry` from src/types.go.  `expires = none` models Go's zero
`time.Time` (`Expires.IsZero()`); `expires = some t` an expiry instant. -/
structure CookieEntry where
  name : String
  value : String
  domain : String
  path : String
  expires : Option Nat
  maxAge : Int
  secure : Bool
  httpOnly : Bool
  sameSite : String
deriving Repr, DecidableEq

/-- `CookieJar` from src/types.go. -/
structure CookieJar where
  cookies : List CookieEntry
  lastUpdated : Nat
deriving Repr, DecidableEq

/-- A parsed URL (`net/url.URL`), restricted to the fields the cookie code
reads: `Scheme`, `Host`, `Path`. -/
structure ParsedURL where
  scheme : String
  host : String
  path : String
deriving Repr, DecidableEq

/-- Go `strings.HasPrefix(s, pre)`, computed on the character list. -/
def strHasPrefix (s pre : String) : Bool :=
  pre.data.isPrefixOf s.data

/-- Go `strings.HasSuffix(s, suf)`, computed on the character list. -/
def strHasSuffix (s suf : String) : Bool :=
  suf.data.isSuffixOf s.data

/-- Go `s[1:]` on a string known to start with a one-byte character
(`cookieDomain[1:]` in `domainMatches`). -/
def strDropOne (s : String) : String :=
  ⟨s.data.drop 1⟩

/-- `!cookie.Expires.IsZero() && cookie.Expires.Before(now)` from
`isCookieApplicable` / `CleanExpired` in src/cookie.go. -/
def cookieExpired (now : Nat) (c : CookieEntry) : Bool :=
  match c.expires with
  | none => false
  | some t => decide (t < now)

/-- `domainMatches` from src/cookie.go. -/
def domainMatches (cookieDomain host : String) : Bool :=
  if cookieDomain = "" then true
  else if cookieDomain = host then true
  else if strHasPrefix cookieDomain "." then
    strHasSuffix host cookieDomain || host = strDropOne cookieDomain
  else false

/-- `pathMatches` from src/cookie.go. -/
def pathMatches (cookiePath urlPath : String) : Bool :=
  if cookiePath = "" ∨ cookiePath = "/" then true
  else
    let cp := if strHasPrefix cookiePath "/" then cookiePath else "/" ++ cookiePath
    strHasPrefix urlPath cp

/-- `isCookieApplicable` from src/cookie.go. -/
def isCookieApplicable (now : Nat) (c : CookieEntry) (u : ParsedURL) : Bool :=
  if cookieExpired now c then false
  else if !domainMatches c.domain u.host then false
  else if !pathMatches c.path u.path then false
  else if c.secure && !(u.scheme = "https") then false
  else true

/-- `GetCookiesForURL` from src/cookie.go, over an already-parsed URL
(the Go version returns `nil` when `url.Parse` fails, before this filter). -/
def GetCookiesForURL (now : Nat) (jar : CookieJar) (u : ParsedURL) : List CookieEntry :=
  jar.cookies.filter (fun c => isCookieApplicable now c u)

/-- `CleanExpired` from src/cookie.go: drop every cookie whose expiry is
set and in the past. -/
def CleanExpired (now : Nat) (jar : CookieJar) : CookieJar :=
  { jar with cookies := jar.cookies.filter (fun c => !cookieExpired now c) }

/-- `ClearCookies` from src/cookie.go. -/
def ClearCookies (jar : CookieJar) : CookieJar :=
  { jar with cookies := [] }

/-- The login-cookie name hard-coded in `LoadFromFile` (src/cookie.go). -/
def winduserCookieName : String := "eb9e6_winduser"

/-- The `lo.ContainsBy(cm.jar.Cookies, ...)` check in `LoadFromFile`. -/
def hasWinduser (jar : CookieJar) : Bool :=
  jar.cookies.any (fun c => c.name = winduserCookieName)

/-! ## Cookie file persistence (src/cookie.go)

`SaveToFile` serializes the jar with `toml.Marshal` and `LoadFromFile`
parses with `toml.Unmarshal`.  File contents are modelled structurally,
discriminated by how the parsers involved treat them:

* `tomlDoc jar` is a TOML document that `toml.Unmarshal` decodes into
  `jar` — exactly what `toml.Marshal` produces for `jar`;
* `netscapeDoc rows` is a Netscape cookie-file text: a format header
  comment plus one tab-separated row per cookie.  A comment-only Netscape
  file (`rows = []`) happens to be a decodable TOML document that sets no
  keys; a Netscape file with at least one cookie row is never decodable
  TOML, because its rows contain no `=` key separator, so `toml.Unmarshal`
  fails on it;
* `otherUnparseable raw` is any other content `toml.Unmarshal` rejects.

File reads and writes are modelled as succeeding; `os`-level I/O failures
are outside the model (the spec treats them separately from parse errors).
-/

/-- One data row of a Netscape cookie file, as described by the spec:
tab-separated `domain, includeSubdomains-flag, path, secure-flag, expiry,
name, value`, with an `#HttpOnly_` domain prefix for HTTP-only cookies. -/
structure NetscapeRow where
  httpOnlyPrefixed : Bool
  domain : String
  includeSubdomains : Bool
  path : String
  secure : Bool
  expiry : Nat
  name : String
  value : String
deriving Repr, DecidableEq

/-- Contents of the cookie file, discriminated by parser behaviour. -/
inductive CookieFileContent where
  | empty
  | tomlDoc (jar : CookieJar)
  | netscapeDoc (rows : List NetscapeRow)
  | otherUnparseable (raw : String)
deriving Repr, DecidableEq

/-- The cookie file and its timestamped backup slot. -/
structure CookieFS where
  mainFile : Option CookieFileContent
  backupFile : Option CookieFileContent
deriving Repr, DecidableEq

/-- `SaveToFile` from src/cookie.go: stamp `LastUpdated`, prune expired
cookies, `toml.Marshal` the jar and write it.  Returns the jar as mutated
(`CleanExpired` runs on the receiver) and the updated file system. -/
def SaveToFile (now : Nat) (jar : CookieJar) (fs : CookieFS) (path : String) :
    CookieJar × CookieFS :=
  if path = "" then (jar, fs)
  else
    let jar1 := CleanExpired now { jar with lastUpdated := now }
    (jar1, { fs with mainFile := some (.tomlDoc jar1) })

/-- `LoadFromFile` from src/cookie.go.  Missing file: write the current
(fresh) store back.  Empty file: keep defaults.  Decodable TOML: adopt it,
prune expired cookies, and clear the whole store when the
`eb9e6_winduser` login cookie is absent.  Undecodable content (which
includes any Netscape file with at least one cookie row): move the file to
the backup slot and write a fresh file. -/
def LoadFromFile (now : Nat) (jar : CookieJar) (fs : CookieFS) (path : String) :
    CookieJar × CookieFS :=
  if path = "" then (jar, fs)
  else
    match fs.mainFile with
    | none => SaveToFile now jar fs path
    | some .empty => (jar, fs)
    | some (.tomlDoc j) =>
      let j1 := CleanExpired now j
      (if hasWinduser j1 then j1 else ClearCookies j1, fs)
    | some (.netscapeDoc []) =>
      -- comments-only file: valid TOML that sets no keys, so the jar is
      -- kept, pruned, and subjected to the login-cookie check
      let j1 := CleanExpired now jar
      (if hasWinduser j1 then j1 else ClearCookies j1, fs)
    | some (.netscapeDoc (r :: rs)) =>
      SaveToFile now jar { mainFile := none, backupFile := some (.netscapeDoc (r :: rs)) } path
    | some (.otherUnparseable raw) =>
      SaveToFile now jar { mainFile := none, backupFile := some (.otherUnparseable raw) } path

/-- The Netscape serialization of a jar, following the spec's words
(§6 of the spec): one tab-separated row per cookie in order.  This is the
spec-side definition that claim C8 asserts `SaveToFile` produces. -/
def netscapeSerialize (jar : CookieJar) : CookieFileContent :=
  .netscapeDoc (jar.cookies.map (fun c =>
    { httpOnlyPrefixed := c.httpOnly
      domain := c.domain
      includeSubdomains := strHasPrefix c.domain "."
      path := c.path
      secure := c.secure
      expiry := c.expires.getD 0
      name := c.name
      value := c.value }))

/-! ## Fetch engine (src/fetcher.go)

`FetchWithRetry` is modelled as a loop over an outcome sequence
`o : Nat → AttemptOutcome` giving, for each attempt index, what
`doRequest` would return on that attempt.  `time.Sleep` calls are modelled
by accumulating the slept duration. -/

/-- What one `doRequest` call produces: a network-level error or a
response with a status code. -/
inductive AttemptOutcome where
  | netError (e : String)
  | response (status : Nat)
deriving Repr, DecidableEq

/-- The `lastErr` values `FetchWithRetry` can record: a network error, or
the `服务器错误` error built from a non-2xx/non-4xx status. -/
inductive FetchErrCause where
  | net (e : String)
  | server (status : Nat)
deriving Repr, DecidableEq

/-- The value `FetchWithRetry` returns: the response on 2xx, the terminal
`HTTP错误` on 4xx, or the retries-exhausted error carrying the configured
`MaxRetries` count and the last recorded cause. -/
inductive FetchOutcome where
  | ok (status : Nat)
  | clientError (status : Nat)
  | exhausted (retries : Nat) (last : Option FetchErrCause)
deriving Repr, DecidableEq

/-- Result of a `FetchWithRetry` run: outcome, number of `doRequest`
calls made, and total time slept. -/
structure FetchTrace where
  outcome : FetchOutcome
  attemptsMade : Nat
  totalSleep : Nat
deriving Repr, DecidableEq

/-- The body of `FetchWithRetry`'s `for attempt := 0; attempt <=
f.config.MaxRetries` loop, with `fuel` counting the remaining iterations.
Before every attempt after the first the loop sleeps `retryDelay`; a
network error is recorded and retried; a 2xx response is returned; a 4xx
response is returned as a terminal error; any other status is recorded as
a server error and, when `500 ≤ s`, followed by one extra `retryDelay`
sleep before the next attempt. -/
def fetchLoop (maxRetries retryDelay : Nat) (o : Nat → AttemptOutcome) :
    Nat → Nat → Option FetchErrCause → Nat → FetchTrace
  | 0, attempt, lastErr, slept => ⟨.exhausted maxRetries lastErr, attempt, slept⟩
  | fuel + 1, attempt, _lastErr, slept =>
    let slept1 := if 0 < attempt then slept + retryDelay else slept
    match o attempt with
    | .netError e =>
      fetchLoop maxRetries retryDelay o fuel (attempt + 1) (some (.net e)) slept1
    | .response s =>
      if 200 ≤ s ∧ s < 300 then ⟨.ok s, attempt + 1, slept1⟩
      else if 400 ≤ s ∧ s < 500 then ⟨.clientError s, attempt + 1, slept1⟩
      else
        fetchLoop maxRetries retryDelay o fuel (attempt + 1) (some (.server s))
          (if 500 ≤ s then slept1 + retryDelay else slept1)

/-- `FetchWithRetry` from src/fetcher.go: up to `maxRetries + 1` attempts
starting at attempt 0 with no recorded error and no time slept. -/
def FetchWithRetry (maxRetries retryDelay : Nat) (o : Nat → AttemptOutcome) : FetchTrace :=
  fetchLoop maxRetries retryDelay o (maxRetries + 1) 0 none 0

/-- An attempt outcome the loop retries past: a network error, or a
response that is neither 2xx nor 4xx. -/
def retriableOutcome : AttemptOutcome → Bool
  | .netError _ => true
  | .response s => !(decide (200 ≤ s ∧ s < 300)) && !(decide (400 ≤ s ∧ s < 500))

/-- The `lastErr` value recorded for a retried attempt outcome. -/
def causeOf : AttemptOutcome → FetchErrCause
  | .netError e => .net e
  | .response s => .server s

/-- Whether a retried attempt outcome triggers the extra 5xx sleep. -/
def extraSleepOutcome : AttemptOutcome → Bool
  | .netError _ => false
  | .response s => decide (500 ≤ s)

/-- Number of attempts with index below `n` that trigger the extra 5xx
sleep. -/
def extraCountBelow (o : Nat → AttemptOutcome) (n : Nat) : Nat :=
  (List.range n).countP (fun j => extraSleepOutcome (o j))

/-! ## Concurrent pagination (src/fetcher.go)

`fetchPagesConcurrently` is modelled by its two pure parts: the worker
count computation and the results-to-slots assembly.  Worker completion
order is modelled by quantifying over every permutation of the canonical
per-page result list. -/

/-- The worker-count computation at the top of `fetchPagesConcurrently`:
`runtime.NumCPU()` capped by `MaxConcurrent`, bounded below by 1. -/
def numPageWorkers (numCPU maxConcurrent : Nat) : Nat :=
  let n := numCPU
  let n := if maxConcurrent < n then maxConcurrent else n
  if n < 1 then 1 else n

/-- One element received on the `results` channel: a fetched parser for a
page, or a failure for that page. -/
inductive PageResult (P : Type) where
  | ok (page : Nat) (parser : P)
  | fail (page : Nat) (err : String)
deriving Repr, DecidableEq

/-- The page number a result is keyed by. -/
def PageResult.pageOf {P : Type} : PageResult P → Nat
  | .ok page _ => page
  | .fail page _ => page

/-- The body of the result-collection loop: a successful page is stored at
slot `page - 1`; a failed page is logged and leaves its slot untouched. -/
def applyPageResult {P : Type} (slots : List (Option P)) : PageResult P → List (Option P)
  | .ok page parser => slots.set (page - 1) (some parser)
  | .fail _ _ => slots

/-- The tail of `fetchPagesConcurrently`: a pre-sized slot array with the
first page's parser at index 0, every received result applied in arrival
order, `nil` slots filtered out, and no error ever returned. -/
def assemblePageParsers {P : Type} (totalPages : Nat) (first : P)
    (results : List (PageResult P)) : List P × Option String :=
  let slots := results.foldl applyPageResult (some first :: List.replicate (totalPages - 1) none)
  (slots.filterMap id, none)

/-- The result produced for one page given its fetch outcome
(`o page = none` models a worker failure on that page). -/
def pageOutcomeResult {P : Type} (o : Nat → Option P) (page : Nat) : PageResult P :=
  match o page with
  | some p => .ok page p
  | none => .fail page "fetch failed"

/-- One result per page 2..totalPages, in page order.  The actual arrival
order on the channel is an arbitrary permutation of this list. -/
def canonicalPageResults {P : Type} (o : Nat → Option P) (totalPages : Nat) :
    List (PageResult P) :=
  (List.range' 2 (totalPages - 1)).map (pageOutcomeResult o)

/-- Modelled from the spec: `resolvePageFetchResults` is code of this
repository that is not under src/ — only its tests
(src/fetcher_pagination_test.go) and the `strict_pagination` config flag
(src/config.go) are present.  Per the spec's strict-mode description and
the tests: in strict mode a non-empty missing-page set becomes one
aggregate error naming those pages (`缺失页: [3]`), with no pages
returned; otherwise the non-`nil` slots are returned with no error. -/
def resolvePageFetchResults {P : Type} (slots : List (Option P))
    (missingPages : List Nat) (strict : Bool) : Except (List Nat) (List P) :=
  if strict ∧ missingPages ≠ [] then .error missingPages
  else .ok (slots.filterMap id)

/-! ## Gofile resumable downloader (src/gofile.go)

Byte strings (HTTP bodies, file contents) are `List Nat`; `int64` sizes
are `Int`.  Only the ASCII subset of `bytes.TrimSpace` / `bytes.ToLower` /
`strings.ToLower` / `strings.EqualFold` is modelled, which is exact on the
ASCII inputs these checks compare against. -/

/-- ASCII white space as recognised by `unicode.IsSpace` (the tab, LF,
vertical tab, form feed, CR and space bytes). -/
def isSpaceByte (b : Nat) : Bool :=
  b = 9 || b = 10 || b = 11 || b = 12 || b = 13 || b = 32

/-- ASCII lower-casing of one byte (`bytes.ToLower` on ASCII input). -/
def toLowerByte (b : Nat) : Nat :=
  if 65 ≤ b ∧ b ≤ 90 then b + 32 else b

/-- `bytes.TrimSpace`: strip white space from both ends. -/
def trimSpaceBytes (l : List Nat) : List Nat :=
  ((l.dropWhile isSpaceByte).reverse.dropWhile isSpaceByte).reverse

/-- The bytes of an ASCII string literal. -/
def asciiBytes (s : String) : List Nat :=
  s.data.map Char.toNat

/-- ASCII lower-casing of one character (`strings.ToLower` on ASCII). -/
def lowerChar (c : Char) : Char :=
  if 'A' ≤ c ∧ c ≤ 'Z' then Char.ofNat (c.toNat + 32) else c

/-- Go `strings.Contains(s, sub)`, computed on character lists. -/
def strContainsSub (s sub : String) : Bool :=
  (List.range (s.data.length + 1)).any (fun i => sub.data.isPrefixOf (s.data.drop i))

/-- `isHTMLPayload` from src/gofile.go: the declared content type contains
`text/html` (case-insensitively), or the trimmed, lower-cased body prefix
starts with `<!doctype html` or `<html`. -/
def isHTMLPayload (contentType : String) (prefixBytes : List Nat) : Bool :=
  if strContainsSub ⟨contentType.data.map lowerChar⟩ "text/html" then true
  else
    let trimmedLower := (trimSpaceBytes prefixBytes).map toLowerByte
    (asciiBytes "<!doctype html").isPrefixOf trimmedLower
      || (asciiBytes "<html").isPrefixOf trimmedLower

/-- `isValidDownloadStatus` from src/gofile.go. -/
def isValidDownloadStatus (statusCode : Nat) (partSize : Int) : Bool :=
  if statusCode = 403 ∨ statusCode = 404 ∨ statusCode = 405 ∨ statusCode = 500 then false
  else if partSize = 0 then statusCode = 200 || statusCode = 206
  else statusCode = 206 || statusCode = 200

/-- A size-carrying header (`Content-Length`, or the total field of
`Content-Range`): absent, present but unparseable (including a
`Content-Range` without exactly one `/`), or parsed to a number. -/
inductive HeaderField where
  | absent
  | malformed
  | value (n : Int)
deriving Repr, DecidableEq

/-- `extractFileSize` from src/gofile.go: with no resume offset the total
is `Content-Length`; with a resume offset `Content-Range`'s total wins,
else `Content-Length` counts the remaining bytes on top of the offset. -/
def extractFileSize (contentLength contentRange : HeaderField) (partSize : Int) :
    Except String (Int × Bool) :=
  if partSize = 0 then
    match contentLength with
    | .absent => .ok (0, false)
    | .malformed => .error "invalid Content-Length"
    | .value n => .ok (n, true)
  else
    match contentRange with
    | .value n => .ok (n, true)
    | .malformed => .error "invalid Content-Range"
    | .absent =>
      match contentLength with
      | .absent => .ok (0, false)
      | .malformed => .error "invalid Content-Length"
      | .value remain => .ok (partSize + remain, true)

/-- The response one download attempt observes, with the two size headers
already classified. -/
structure DownloadResponse where
  status : Nat
  contentType : String
  contentLength : HeaderField
  contentRange : HeaderField
  body : List Nat
deriving Repr, DecidableEq

/-- The `.part` temporary file and the final file of one download target. -/
structure PartFS where
  tmpFile : Option (List Nat)
  finalFile : Option (List Nat)
deriving Repr, DecidableEq

/-- `downloadFileAttempt` from src/gofile.go, given the response the
request produced and the resume offset `partSize` (the `.part` size the
caller measured).  Steps: status gate; peek up to 512 body bytes and
reject HTML payloads; force the effective offset to zero when a ranged
request got a plain `200`; determine the expected total size; open the
`.part` file with `O_APPEND` (offset > 0) or `O_TRUNC` (offset 0) and
write the body; fail if a known total disagrees with the resulting size;
else rename `.part` onto the final path. -/
def downloadFileAttempt (resp : DownloadResponse) (partSize : Int) (fs : PartFS) :
    Except String Unit × PartFS :=
  if !isValidDownloadStatus resp.status partSize then
    (.error ("unexpected status " ++ toString resp.status), fs)
  else
    let head := resp.body.take 512
    if isHTMLPayload resp.contentType head then
      (.error "unexpected HTML response body (possible auth failure or expired link)", fs)
    else
      let effectivePartSize := if 0 < partSize ∧ resp.status = 200 then 0 else partSize
      match extractFileSize resp.contentLength resp.contentRange effectivePartSize with
      | .error e => (.error e, fs)
      | .ok (totalSize, hasTotalSize) =>
        let newTmp :=
          if 0 < effectivePartSize then fs.tmpFile.getD [] ++ resp.body else resp.body
        if hasTotalSize ∧ (newTmp.length : Int) ≠ totalSize then
          (.error ("download incomplete: " ++ toString newTmp.length ++ " != "
              ++ toString totalSize),
            { fs with tmpFile := some newTmp })
        else
          (.ok (), { tmpFile := none, finalFile := some newTmp })

/-- The fields of `gofileRemoteFile` (src/gofile.go) the digest checks
read: the remote-declared size and MD5 (`0` / empty = unknown). -/
structure gofileRemoteFile where
  size : Int
  md5 : String
deriving Repr, DecidableEq

/-- `gofileFileDigest` from src/gofile.go. -/
structure gofileFileDigest where
  size : Int
  md5 : String
deriving Repr, DecidableEq

/-- Go `strings.TrimSpace` on a string, ASCII white space. -/
def strTrimSpace (s : String) : String :=
  ⟨((s.data.dropWhile (fun c => isSpaceByte c.toNat)).reverse.dropWhile
      (fun c => isSpaceByte c.toNat)).reverse⟩

/-- Go `strings.EqualFold`, restricted to ASCII folding. -/
def eqFold (a b : String) : Bool :=
  a.data.map lowerChar = b.data.map lowerChar

/-- `computeFileDigest` from src/gofile.go: the file's length together
with its MD5.  The MD5 function itself is a parameter of the model. -/
def computeFileDigest (md5fn : List Nat → String) (content : List Nat) : gofileFileDigest :=
  ⟨(content.length : Int), md5fn content⟩

/-- `validateDigestAgainstRemote` from src/gofile.go. -/
def validateDigestAgainstRemote (d : gofileFileDigest) (file : gofileRemoteFile) :
    Except String Unit :=
  if 0 < file.size ∧ d.size ≠ file.size then .error "size mismatch"
  else if strTrimSpace file.md5 ≠ "" ∧ !eqFold d.md5 (strTrimSpace file.md5) then
    .error "md5 mismatch"
  else .ok ()

/-- The digest sidecar next to a final file: absent, present but not valid
JSON, or holding a stored digest. -/
inductive SidecarState where
  | absent
  | invalid
  | stored (d : gofileFileDigest)
deriving Repr, DecidableEq

/-- The final file and its digest sidecar for one download target. -/
structure GofileFS where
  finalFile : Option (List Nat)
  sidecar : SidecarState
deriving Repr, DecidableEq

/-- `verifyAndMaybeSkipExistingFile` from src/gofile.go: no final file (or
an empty one) means no skip; otherwise the fresh digest must validate
against the remote-declared values and agree with any stored sidecar, and
on success the sidecar is (re)written and the file is skipped. -/
def verifyAndMaybeSkipExistingFile (md5fn : List Nat → String) (fs : GofileFS)
    (file : gofileRemoteFile) : Except String Bool × GofileFS :=
  match fs.finalFile with
  | none => (.ok false, fs)
  | some content =>
    if content.length = 0 then (.ok false, fs)
    else
      let digest := computeFileDigest md5fn content
      match validateDigestAgainstRemote digest file with
      | .error e => (.error e, fs)
      | .ok () =>
        match fs.sidecar with
        | .stored sidecar =>
          if sidecar.size ≠ digest.size ∨ !eqFold sidecar.md5 digest.md5 then
            (.error "digest sidecar mismatch", fs)
          else (.ok true, { fs with sidecar := .stored digest })
        | .invalid => (.error "invalid digest file", fs)
        | .absent => (.ok true, { fs with sidecar := .stored digest })

/-- Whether `downloadFile` returns before its download loop. -/
inductive SkipDecision where
  | skipVerified
  | redownload
deriving Repr, DecidableEq

/-- The existing-file gate at the top of `downloadFile` (src/gofile.go):
a verification error deletes the final file and the sidecar and falls
through to the download loop; a verified file is skipped (success with no
network request); otherwise the loop runs on the files as they are. -/
def downloadFileGate (md5fn : List Nat → String) (fs : GofileFS)
    (file : gofileRemoteFile) : SkipDecision × GofileFS :=
  match verifyAndMaybeSkipExistingFile md5fn fs file with
  | (.error _, fs1) => (.redownload, { fs1 with finalFile := none, sidecar := .absent })
  | (.ok true, fs1) => (.skipVerified, fs1)
  | (.ok false, fs1) => (.redownload, fs1)

/-! ## Claim-side predicates and concrete fixtures -/

/-- The applicability condition exactly as claim C7 states it: not
expired; `cookie.domain` equals the host, or starts with `.` and the host
equals or is a sub-label suffix of the remainder; `cookie.path` is empty
or `/`, or the URL path starts with `cookie.path`; and `secure` implies
the scheme is `https`. -/
def claimedApplicable (now : Nat) (c : CookieEntry) (u : ParsedURL) : Bool :=
  !cookieExpired now c
    && (c.domain = u.host
      || (strHasPrefix c.domain "."
        && (u.host = strDropOne c.domain || strHasSuffix u.host c.domain)))
    && (c.path = "" || c.path = "/" || strHasPrefix u.path c.path)
    && (!c.secure || u.scheme = "https")

/-- The amended applicability condition: as claimed, plus an empty
`cookie.domain` matches every host, and the cookie path is normalised to
start with `/` before the prefix comparison. -/
def amendedApplicable (now : Nat) (c : CookieEntry) (u : ParsedURL) : Bool :=
  !cookieExpired now c
    && (c.domain = "" || c.domain = u.host
      || (strHasPrefix c.domain "."
        && (strHasSuffix u.host c.domain || u.host = strDropOne c.domain)))
    && (c.path = "" || c.path = "/"
      || strHasPrefix u.path (if strHasPrefix c.path "/" then c.path else "/" ++ c.path))
    && (!c.secure || u.scheme = "https")

/-- A session cookie with an empty domain: stored by the code (e.g. via
`SetCookieFromString` with an empty default) and applicable everywhere. -/
def emptyDomainCookie : CookieEntry :=
  { name := "sid", value := "v", domain := "", path := "/", expires := none,
    maxAge := 0, secure := false, httpOnly := false, sameSite := "" }

/-- A plain https URL used against `emptyDomainCookie`. -/
def exampleURL : ParsedURL :=
  { scheme := "https", host := "example.com", path := "/" }

/-- The jar `NewCookieManager` starts from: no cookies, `LastUpdated`
stamped with the creation time. -/
def NewCookieManagerJar (createdAt : Nat) : CookieJar :=
  ⟨[], createdAt⟩

/-- A never-expiring sample cookie used in the persistence fixtures. -/
def sampleCookie : CookieEntry :=
  { name := "theme", value := "dark", domain := ".example.com", path := "/",
    expires := none, maxAge := 0, secure := true, httpOnly := true, sameSite := "Lax" }

/-- Whether a file content is a Netscape cookie-file text. -/
def isNetscapeContent : CookieFileContent → Bool
  | .netscapeDoc _ => true
  | _ => false

/-- Page-fetch outcome fixture: page 3 always fails, every other page
yields its page number as the parsed parser. -/
def pageOutcome3Fails : Nat → Option Nat :=
  fun pg => if pg = 3 then none else some pg

/-- A completion order for pages 2..5 of `pageOutcome3Fails` that differs
from page order. -/
def scrambledResults : List (PageResult Nat) :=
  [.ok 4 4, .fail 3 "fetch failed", .ok 2 2, .ok 5 5]

/-- Attempt-outcome fixture for the retry theorem: a 503 on attempt 0,
then a 404. -/
def retryOutcomeFixture : Nat → AttemptOutcome :=
  fun j => if j = 0 then .response 503 else .response 404

/-- A response whose body is an HTML login page served with a binary
content type. -/
def htmlResponse : DownloadResponse :=
  { status := 200, contentType := "application/octet-stream",
    contentLength := .absent, contentRange := .absent,
    body := asciiBytes "<html><body>login required</body></html>" }

/-- A plain `200 OK` full-body response to a ranged request: 5 body bytes
with a matching `Content-Length`. -/
def resumedResponse : DownloadResponse :=
  { status := 200, contentType := "application/octet-stream",
    contentLength := .value 5, contentRange := .absent,
    body := [10, 20, 30, 40, 50] }

/-- MD5 fixture for the digest theorems: an injective stand-in keyed by
the content itself. -/
def md5Fixture : List Nat → String :=
  fun content => String.join (content.map (fun b => Nat.repr b ++ "-"))

end North2MD

namespace North2MD

/-! ## Theorems -/

/-- Pointwise: the code's `isCookieApplicable` decides exactly the amended
applicability condition. -/
theorem isCookieApplicable_eq_amended (now : Nat) (c : CookieEntry) (u : ParsedURL) :
    isCookieApplicable now c u = amendedApplicable now c u := by
  unfold isCookieApplicable amendedApplicable domainMatches pathMatches
  by_cases h1 : cookieExpired now c <;>
    by_cases h2 : c.domain = "" <;>
      by_cases h3 : c.domain = u.host <;>
        by_cases h4 : strHasPrefix c.domain "." = true <;>
          by_cases h5 : c.path = "" ∨ c.path = "/" <;>
            (try obtain h5 | h5 := h5) <;>
              simp_all [Bool.and_assoc]

/-- C7 (amended): for every stored cookie and parsed URL,
`GetCookiesForURL` returns exactly the cookies satisfying the amended
applicability condition — not expired; domain empty, or equal to the
host, or a `.`-prefixed domain the host equals or is a sub-label suffix
of; path empty or `/`, or a prefix (normalised to start with `/`) of the
URL path; and `secure` only over `https`. -/
theorem GetCookiesForURL_amended_spec (now : Nat) (jar : CookieJar) (u : ParsedURL) :
    GetCookiesForURL now jar u = jar.cookies.filter (fun c => amendedApplicable now c u) := by
  unfold GetCookiesForURL
  congr 1
  funext c
  exact isCookieApplicable_eq_amended now c u

/-- C7 as stated is false: the stored `emptyDomainCookie` is returned by
`GetCookiesForURL` although the claim's applicability condition (which has
no empty-domain case) rejects it. -/
theorem GetCookiesForURL_claim_counterexample :
    GetCookiesForURL 0 ⟨[emptyDomainCookie], 0⟩ exampleURL = [emptyDomainCookie]
      ∧ claimedApplicable 0 emptyDomainCookie exampleURL = false := by
  constructor
  · decide
  · decide

/-- `hasWinduser` reads only the cookie list. -/
theorem hasWinduser_any (jar : CookieJar) :
    hasWinduser jar = jar.cookies.any (fun c => c.name = winduserCookieName) := rfl

/-- Pruning is idempotent: cleaning an already-cleaned jar changes
nothing. -/
theorem CleanExpired_idem (now : Nat) (j : CookieJar) :
    CleanExpired now (CleanExpired now j) = CleanExpired now j := by
  simp [CleanExpired, List.filter_filter]

/-- C9: `LoadFromFile` never surfaces a parse error.  A missing file
initialises the empty store and writes it back; an unparseable file is
moved aside as a backup and a fresh empty file is written — in both cases
the call completes with the empty, freshly-initialised store. -/
theorem LoadFromFile_selfHealing (now t0 : Nat) (fs : CookieFS) (path raw : String)
    (hpath : path ≠ "") :
    (fs.mainFile = none →
      LoadFromFile now (NewCookieManagerJar t0) fs path
        = (⟨[], now⟩, { fs with mainFile := some (.tomlDoc ⟨[], now⟩) })) ∧
    (fs.mainFile = some (.otherUnparseable raw) →
      LoadFromFile now (NewCookieManagerJar t0) fs path
        = (⟨[], now⟩, ⟨some (.tomlDoc ⟨[], now⟩), some (.otherUnparseable raw)⟩)) := by
  constructor <;> intro h <;>
    simp [LoadFromFile, SaveToFile, NewCookieManagerJar, CleanExpired, hpath, h]

/-- Closed witness for `LoadFromFile_selfHealing` at a concrete state. -/
theorem LoadFromFile_selfHealing_witness :
    ("cookies.toml" ≠ "" ∧
      LoadFromFile 7 (NewCookieManagerJar 3) ⟨none, none⟩ "cookies.toml"
        = (⟨[], 7⟩, ⟨some (.tomlDoc ⟨[], 7⟩), none⟩)) ∧
    LoadFromFile 7 (NewCookieManagerJar 3) ⟨some (.otherUnparseable "not toml"), none⟩
        "cookies.toml"
      = (⟨[], 7⟩, ⟨some (.tomlDoc ⟨[], 7⟩), some (.otherUnparseable "not toml")⟩) := by
  refine ⟨⟨by decide, ?_⟩, ?_⟩
  · exact (LoadFromFile_selfHealing 7 3 ⟨none, none⟩ "cookies.toml" "x" (by decide)).1 rfl
  · exact (LoadFromFile_selfHealing 7 3 ⟨some (.otherUnparseable "not toml"), none⟩
      "cookies.toml" "not toml" (by decide)).2 rfl

/-- C10: when a decodable cookie file, after pruning, contains no
`eb9e6_winduser` cookie, `LoadFromFile` clears the whole store, and a
subsequent `SaveToFile` persists that empty store over the file. -/
theorem LoadFromFile_clears_without_login (now : Nat) (jar j : CookieJar) (fs : CookieFS)
    (path : String) (hpath : path ≠ "")
    (hmain : fs.mainFile = some (.tomlDoc j))
    (hno : hasWinduser (CleanExpired now j) = false) :
    LoadFromFile now jar fs path = (ClearCookies (CleanExpired now j), fs) ∧
    (SaveToFile now (LoadFromFile now jar fs path).1 (LoadFromFile now jar fs path).2
        path).2.mainFile
      = some (.tomlDoc ⟨[], now⟩) := by
  have hload : LoadFromFile now jar fs path = (ClearCookies (CleanExpired now j), fs) := by
    simp [LoadFromFile, hpath, hmain, hno]
  refine ⟨hload, ?_⟩
  rw [hload]
  simp [SaveToFile, hpath, CleanExpired, ClearCookies]

/-- Closed witness for `LoadFromFile_clears_without_login`. -/
theorem LoadFromFile_clears_without_login_witness :
    LoadFromFile 0 (NewCookieManagerJar 0)
        ⟨some (.tomlDoc ⟨[sampleCookie], 4⟩), none⟩ "cookies.toml"
      = (ClearCookies (CleanExpired 0 ⟨[sampleCookie], 4⟩),
          ⟨some (.tomlDoc ⟨[sampleCookie], 4⟩), none⟩) := by
  exact (LoadFromFile_clears_without_login 0 (NewCookieManagerJar 0) ⟨[sampleCookie], 4⟩
    ⟨some (.tomlDoc ⟨[sampleCookie], 4⟩), none⟩ "cookies.toml"
    (by decide) rfl (by decide)).1

/-- C8 as stated is false: `SaveToFile` writes the TOML serialization of
the jar, which is not a Netscape cookie-file text (a nonempty Netscape
text consists of tab-separated cookie rows with no `=` key separator and
is not decodable TOML). -/
theorem SaveToFile_not_netscape_counterexample :
    (SaveToFile 5 ⟨[sampleCookie], 0⟩ ⟨none, none⟩ "cookies.toml").2.mainFile
        = some (.tomlDoc ⟨[sampleCookie], 5⟩)
      ∧ some (CookieFileContent.tomlDoc ⟨[sampleCookie], 5⟩)
        ≠ some (netscapeSerialize ⟨[sampleCookie], 5⟩)
      ∧ isNetscapeContent (CookieFileContent.tomlDoc ⟨[sampleCookie], 5⟩) = false := by
  refine ⟨by decide, by decide, by decide⟩

/-- C8 (amended): `SaveToFile` writes the TOML document of the pruned,
re-stamped jar (not Netscape text), and for a freshly-created manager,
`load` then `save` then `load` — at one instant, i.e. modulo pruning of
entries expiring between the calls and modulo the login-cookie clearing,
which is idempotent across the round trip — yields the same cookie set as
the first `load`, whatever the initial file contents. -/
theorem SaveToFile_toml_and_roundtrip (now t0 : Nat) (jar : CookieJar) (fs : CookieFS)
    (path : String) (hpath : path ≠ "") :
    (SaveToFile now jar fs path).2.mainFile
        = some (.tomlDoc (CleanExpired now { jar with lastUpdated := now }))
    ∧ ((LoadFromFile now
        (SaveToFile now (LoadFromFile now (NewCookieManagerJar t0) fs path).1
          (LoadFromFile now (NewCookieManagerJar t0) fs path).2 path).1
        (SaveToFile now (LoadFromFile now (NewCookieManagerJar t0) fs path).1
          (LoadFromFile now (NewCookieManagerJar t0) fs path).2 path).2 path).1.cookies
      = (LoadFromFile now (NewCookieManagerJar t0) fs path).1.cookies) := by
  constructor
  · simp [SaveToFile, hpath]
  · rcases fs with ⟨main, backup⟩
    match main with
    | none =>
      simp [LoadFromFile, SaveToFile, NewCookieManagerJar, CleanExpired, hasWinduser,
        ClearCookies, hpath]
    | some .empty =>
      simp [LoadFromFile, SaveToFile, NewCookieManagerJar, CleanExpired, hasWinduser,
        ClearCookies, hpath]
    | some (.tomlDoc j) =>
      cases hW : (j.cookies.filter (fun c => !cookieExpired now c)).any
          (fun c => c.name = winduserCookieName) <;>
        simp [LoadFromFile, SaveToFile, CleanExpired, ClearCookies, hasWinduser_any,
          hpath, List.filter_filter, hW]
    | some (.netscapeDoc []) =>
      simp [LoadFromFile, SaveToFile, NewCookieManagerJar, CleanExpired, hasWinduser,
        ClearCookies, hpath]
    | some (.netscapeDoc (r :: rs)) =>
      simp [LoadFromFile, SaveToFile, NewCookieManagerJar, CleanExpired, hasWinduser,
        ClearCookies, hpath]
    | some (.otherUnparseable raw) =>
      simp [LoadFromFile, SaveToFile, NewCookieManagerJar, CleanExpired, hasWinduser,
        ClearCookies, hpath]

/-- Closed witness for `SaveToFile_toml_and_roundtrip` on a decodable
file holding one unexpired cookie without the login cookie. -/
theorem SaveToFile_toml_and_roundtrip_witness :
    (SaveToFile 5 ⟨[sampleCookie], 0⟩ ⟨some .empty, none⟩ "cookies.toml").2.mainFile
        = some (.tomlDoc (CleanExpired 5 ⟨[sampleCookie], 5⟩))
    ∧ ((LoadFromFile 5
        (SaveToFile 5 (LoadFromFile 5 (NewCookieManagerJar 0) ⟨some .empty, none⟩
          "cookies.toml").1
          (LoadFromFile 5 (NewCookieManagerJar 0) ⟨some .empty, none⟩ "cookies.toml").2
          "cookies.toml").1
        (SaveToFile 5 (LoadFromFile 5 (NewCookieManagerJar 0) ⟨some .empty, none⟩
          "cookies.toml").1
          (LoadFromFile 5 (NewCookieManagerJar 0) ⟨some .empty, none⟩ "cookies.toml").2
          "cookies.toml").2 "cookies.toml").1.cookies
      = (LoadFromFile 5 (NewCookieManagerJar 0) ⟨some .empty, none⟩ "cookies.toml").1.cookies) :=
  SaveToFile_toml_and_roundtrip 5 0 ⟨[sampleCookie], 0⟩ ⟨some .empty, none⟩ "cookies.toml"
    (by decide)

/-- C6: in strict mode a non-empty missing-page set becomes one aggregate
error naming exactly those pages and no pages are returned; the non-strict
variant on the same input returns the surviving pages and no error. -/
theorem resolvePageFetchResults_spec {P : Type} (slots : List (Option P))
    (missing : List Nat) (hm : missing ≠ []) :
    resolvePageFetchResults slots missing true = .error missing ∧
    resolvePageFetchResults slots missing false = .ok (slots.filterMap id) := by
  constructor <;> simp [resolvePageFetchResults, hm]

/-- Closed witness for `resolvePageFetchResults_spec`, mirroring the tests
in src/fetcher_pagination_test.go: page 3 of 3 slots missing. -/
theorem resolvePageFetchResults_spec_witness :
    resolvePageFetchResults [some 1, some 2, (none : Option Nat)] [3] true = .error [3] ∧
    resolvePageFetchResults [some 1, some 2, (none : Option Nat)] [3] false = .ok [1, 2] := by
  have h := resolvePageFetchResults_spec [some 1, some 2, (none : Option Nat)] [3] (by decide)
  exact ⟨h.1, h.2.trans rfl⟩

/-- `applyPageResult` never changes the number of slots. -/
theorem applyPageResult_length {P : Type} (slots : List (Option P)) (r : PageResult P) :
    (applyPageResult slots r).length = slots.length := by
  cases r <;> simp [applyPageResult]

/-- The page a `pageOutcomeResult` is keyed by. -/
theorem pageOutcomeResult_pageOf {P : Type} (o : Nat → Option P) (pg : Nat) :
    (pageOutcomeResult o pg).pageOf = pg := by
  unfold pageOutcomeResult
  cases o pg <;> rfl

/-- Two results for distinct pages (both at least 1) can be applied in
either order. -/
theorem applyPageResult_comm {P : Type} (x y : PageResult P) (slots : List (Option P))
    (hx : 1 ≤ x.pageOf) (hy : 1 ≤ y.pageOf) (h : x.pageOf ≠ y.pageOf) :
    applyPageResult (applyPageResult slots x) y
      = applyPageResult (applyPageResult slots y) x := by
  cases x <;> cases y <;>
    simp_all [applyPageResult, PageResult.pageOf]
  exact List.set_comm _ _ _ (by omega)

/-- Slot contents after folding one result per listed page: slot `k`
holds the parser of page `k + 1` when that page is listed, succeeded, and
fits, and is otherwise untouched. -/
theorem foldl_apply_getElem {P : Type} (o : Nat → Option P) :
    ∀ (pages : List Nat) (slots : List (Option P)) (k : Nat),
      (∀ pg ∈ pages, 2 ≤ pg) →
      ((pages.map (pageOutcomeResult o)).foldl applyPageResult slots)[k]? =
        if k + 1 ∈ pages ∧ (o (k + 1)).isSome ∧ k < slots.length
        then some (o (k + 1)) else slots[k]?
  | [], slots, k, _ => by simp
  | pg :: rest, slots, k, h2 => by
    have h2pg : 2 ≤ pg := h2 pg (List.mem_cons_self pg rest)
    have ih := foldl_apply_getElem o rest (applyPageResult slots (pageOutcomeResult o pg)) k
      (fun q hq => h2 q (List.mem_cons_of_mem pg hq))
    rw [List.map_cons, List.foldl_cons, ih, applyPageResult_length]
    by_cases hpg : pg = k + 1
    · cases ho : o pg with
      | none =>
        have happ : applyPageResult slots (pageOutcomeResult o pg) = slots := by
          simp [pageOutcomeResult, ho, applyPageResult]
        have hnone : (o (k + 1)).isSome = false := by rw [← hpg, ho]; rfl
        rw [happ]
        simp [List.mem_cons, hnone]
      | some v =>
        have happ : applyPageResult slots (pageOutcomeResult o pg)
            = slots.set k (some v) := by
          have hk : pg - 1 = k := by omega
          simp [pageOutcomeResult, ho, applyPageResult, hk]
        have hsome : o (k + 1) = some v := by rw [← hpg, ho]
        rw [happ]
        by_cases hlen : k < slots.length
        · have h1 : (slots.set k (some v))[k]? = some (some v) :=
            List.getElem?_set_eq_of_lt _ hlen
          simp [List.mem_cons, hsome, hlen, h1, hpg]
        · have hle : slots.length ≤ k := Nat.le_of_not_lt hlen
          have h1 : (slots.set k (some v))[k]? = none := by
            apply List.getElem?_eq_none
            rw [List.length_set]
            exact hle
          simp [List.mem_cons, hlen, h1, List.getElem?_eq_none hle]
    · have hne : ¬ k + 1 = pg := fun hh => hpg hh.symm
      cases ho : o pg with
      | none =>
        have happ : applyPageResult slots (pageOutcomeResult o pg) = slots := by
          simp [pageOutcomeResult, ho, applyPageResult]
        rw [happ]
        simp [List.mem_cons, hne]
      | some v =>
        have hidx : pg - 1 ≠ k := by omega
        have happ : applyPageResult slots (pageOutcomeResult o pg)
            = slots.set (pg - 1) (some v) := by
          simp [pageOutcomeResult, ho, applyPageResult]
        rw [happ, List.getElem?_set_ne hidx]
        simp [List.mem_cons, hne]

/-- Folding the canonical (page-ordered) results over the pre-sized slot
array yields the slots in page order: index 0 the first page, index
`k` the parser of page `k + 1` (or `none` for a failed page). -/
theorem assemble_canonical {P : Type} (o : Nat → Option P) (n : Nat) (hn : 1 ≤ n) (first : P) :
    (canonicalPageResults o n).foldl applyPageResult
        (some first :: List.replicate (n - 1) none)
      = some first :: (List.range' 2 (n - 1)).map o := by
  apply List.ext_getElem?
  intro k
  rw [canonicalPageResults, foldl_apply_getElem o _ _ _
    (fun pg hpg => (List.mem_range'_1.mp hpg).1)]
  have hlen : (some first :: List.replicate (n - 1) (none : Option P)).length = n := by
    simp
    omega
  cases k with
  | zero =>
    have h1 : (1 : Nat) ∉ List.range' 2 (n - 1) := by
      intro h
      have := (List.mem_range'_1.mp h).1
      omega
    simp [h1]
  | succ k =>
    by_cases hk : k + 2 ∈ List.range' 2 (n - 1)
    · have hkn : k + 1 < n := by
        have := (List.mem_range'_1.mp hk).2
        omega
      have hkr : k < n - 1 := by omega
      have hrange : (List.range' 2 (n - 1))[k]? = some (k + 2) := by
        rw [List.getElem?_range' 2 1 hkr]
        congr 1
        omega
      cases ho : o (k + 2) with
      | some v =>
        simp [hk, ho, hlen, hkn, List.getElem?_cons_succ, List.getElem?_map, hrange]
      | none =>
        have h1 : (List.replicate (n - 1) (none : Option P))[k]? = some none := by
          simp [List.getElem?_replicate, hkr]
        simp [hk, ho, List.getElem?_cons_succ, List.getElem?_map, hrange, h1]
    · have hge : n - 1 ≤ k := by
        rcases Nat.lt_or_ge k (n - 1) with hlt | hge
        · exact absurd (List.mem_range'_1.mpr ⟨by omega, by omega⟩) hk
        · exact hge
      have h1 : (List.replicate (n - 1) (none : Option P))[k]? = none :=
        List.getElem?_eq_none (by simp [hge])
      have h2 : (List.range' 2 (n - 1))[k]? = none :=
        List.getElem?_eq_none (by simp [hge])
      simp [hk, List.getElem?_cons_succ, List.getElem?_map, h1, h2]

/-- C5: the page-fetch pool uses exactly `min(maxConcurrency,
availableParallelism)` workers bounded below by 1, and — whatever order
the per-page results complete in — the assembled list is the first page
followed by the surviving pages 2..totalPages in page-number order, with
each failed page's slot dropped and no error returned. -/
theorem fetchPagesConcurrently_spec {P : Type} (numCPU maxConc n : Nat) (first : P)
    (o : Nat → Option P) (results : List (PageResult P)) (hn : 1 ≤ n)
    (hperm : results.Perm (canonicalPageResults o n)) :
    numPageWorkers numCPU maxConc = max 1 (min maxConc numCPU) ∧
    assemblePageParsers n first results
      = (first :: (List.range' 2 (n - 1)).filterMap o, none) := by
  constructor
  · simp only [numPageWorkers]
    split <;> split <;> omega
  · unfold assemblePageParsers
    have hcomm : ∀ x ∈ results, ∀ y ∈ results, ∀ slots : List (Option P),
        applyPageResult (applyPageResult slots x) y
          = applyPageResult (applyPageResult slots y) x := by
      intro x hx y hy slots
      have hx1 := hperm.mem_iff.mp hx
      have hy1 := hperm.mem_iff.mp hy
      rw [canonicalPageResults] at hx1 hy1
      obtain ⟨px, hpx, rfl⟩ := List.mem_map.mp hx1
      obtain ⟨py, hpy, rfl⟩ := List.mem_map.mp hy1
      have hpx2 : 2 ≤ px := (List.mem_range'_1.mp hpx).1
      have hpy2 : 2 ≤ py := (List.mem_range'_1.mp hpy).1
      by_cases hpq : px = py
      · subst hpq
        rfl
      · exact applyPageResult_comm _ _ _
          (by rw [pageOutcomeResult_pageOf]; omega)
          (by rw [pageOutcomeResult_pageOf]; omega)
          (by rw [pageOutcomeResult_pageOf, pageOutcomeResult_pageOf]; exact hpq)
    rw [hperm.foldl_eq' hcomm, assemble_canonical o n hn first]
    simp [List.filterMap_cons, List.filterMap_map, Function.id_comp]

/-- Closed witness for `fetchPagesConcurrently_spec`: pages 1..5 with
page 3 failing and results arriving out of order yield exactly pages
1,2,4,5 in that order and no error. -/
theorem fetchPagesConcurrently_spec_witness :
    scrambledResults.Perm (canonicalPageResults pageOutcome3Fails 5) ∧
    numPageWorkers 8 4 = max 1 (min 4 8) ∧
    assemblePageParsers 5 1 scrambledResults = ([1, 2, 4, 5], none) := by
  have hperm : scrambledResults.Perm (canonicalPageResults pageOutcome3Fails 5) := by decide
  have h := fetchPagesConcurrently_spec 8 4 5 1 pageOutcome3Fails scrambledResults
    (by decide) hperm
  exact ⟨hperm, h.1, h.2.trans rfl⟩

/-- The retry loop makes at most `fuel` further `doRequest` calls. -/
theorem fetchLoop_attempts_le (mr d : Nat) (o : Nat → AttemptOutcome) :
    ∀ (fuel attempt : Nat) (le : Option FetchErrCause) (slept : Nat),
      (fetchLoop mr d o fuel attempt le slept).attemptsMade ≤ attempt + fuel := by
  intro fuel
  induction fuel with
  | zero =>
    intro attempt le slept
    simp [fetchLoop]
  | succ fuel ih =>
    intro attempt le slept
    rw [fetchLoop]
    cases ho : o attempt with
    | netError e =>
      dsimp only
      exact Nat.le_trans (ih (attempt + 1) _ _) (by omega)
    | response s =>
      dsimp only
      by_cases h2 : 200 ≤ s ∧ s < 300
      · rw [if_pos h2]
        show attempt + 1 ≤ attempt + (fuel + 1)
        omega
      · by_cases h4 : 400 ≤ s ∧ s < 500
        · rw [if_neg h2, if_pos h4]
          show attempt + 1 ≤ attempt + (fuel + 1)
          omega
        · rw [if_neg h2, if_neg h4]
          exact Nat.le_trans (ih (attempt + 1) _ _) (by omega)

/-- After `k` retriable attempts starting at index `attempt ≥ 1`, a 2xx
response is returned as success and a 4xx response as a terminal client
error, with one base delay per executed attempt and one extra delay per
retried 5xx response. -/
theorem fetchLoop_terminal (mr d : Nat) (o : Nat → AttemptOutcome) :
    ∀ (k fuel attempt : Nat) (le : Option FetchErrCause) (slept : Nat) (s : Nat),
      1 ≤ attempt → k < fuel →
      (∀ j, j < k → retriableOutcome (o (attempt + j)) = true) →
      o (attempt + k) = .response s →
      ((200 ≤ s ∧ s < 300) ∨ (400 ≤ s ∧ s < 500)) →
      fetchLoop mr d o fuel attempt le slept =
        ⟨if 200 ≤ s ∧ s < 300 then .ok s else .clientError s, attempt + k + 1,
          slept + d * (k + 1)
            + d * ((List.range' attempt k).countP (fun j => extraSleepOutcome (o j)))⟩ := by
  intro k
  induction k with
  | zero =>
    intro fuel attempt le slept s h1 hf _hr ho hs
    obtain ⟨fuel, rfl⟩ : ∃ f, fuel = f + 1 := ⟨fuel - 1, by omega⟩
    rw [fetchLoop]
    rw [Nat.add_zero] at ho
    rw [ho]
    dsimp only
    have hpos : 0 < attempt := h1
    rcases hs with h2 | h4
    · rw [if_pos h2, if_pos h2, if_pos hpos]
      refine congrArg₂ _ (by omega) ?_
      rw [show List.range' attempt 0 = [] from rfl, List.countP_nil]
      ring
    · have h2 : ¬(200 ≤ s ∧ s < 300) := by omega
      rw [if_neg h2, if_neg h2, if_pos h4, if_pos hpos]
      refine congrArg₂ _ (by omega) ?_
      rw [show List.range' attempt 0 = [] from rfl, List.countP_nil]
      ring
  | succ k ih =>
    intro fuel attempt le slept s h1 hf hr ho hs
    obtain ⟨fuel, rfl⟩ : ∃ f, fuel = f + 1 := ⟨fuel - 1, by omega⟩
    have hr0 : retriableOutcome (o attempt) = true := by
      have := hr 0 (by omega)
      simpa using this
    have hrest : ∀ j, j < k → retriableOutcome (o (attempt + 1 + j)) = true := by
      intro j hj
      have := hr (j + 1) (by omega)
      simpa [Nat.add_assoc, Nat.add_comm 1 j] using this
    have ho1 : o (attempt + 1 + k) = .response s := by
      rw [show attempt + 1 + k = attempt + (k + 1) by omega]
      exact ho
    have hpos : 0 < attempt := h1
    rw [fetchLoop]
    cases hoa : o attempt with
    | netError e =>
      dsimp only
      rw [ih fuel (attempt + 1) (some (.net e)) _ s (by omega) (by omega) hrest ho1 hs]
      rw [if_pos hpos]
      refine congrArg₂ _ (by omega) ?_
      rw [List.range'_succ, List.countP_cons]
      simp [extraSleepOutcome, hoa]
      ring
    | response s0 =>
      dsimp only
      have hretr : (s0 < 200 ∨ 300 ≤ s0) ∧ (s0 < 400 ∨ 500 ≤ s0) := by
        rw [hoa] at hr0
        simpa [retriableOutcome] using hr0
      have h2 : ¬(200 ≤ s0 ∧ s0 < 300) := by omega
      have h4 : ¬(400 ≤ s0 ∧ s0 < 500) := by omega
      rw [if_neg h2, if_neg h4]
      rw [ih fuel (attempt + 1) (some (.server s0)) _ s (by omega) (by omega) hrest ho1 hs]
      rw [if_pos hpos]
      refine congrArg₂ _ (by omega) ?_
      rw [List.range'_succ, List.countP_cons]
      by_cases h5 : 500 ≤ s0 <;>
        simp [extraSleepOutcome, hoa, h5] <;> ring

/-- When every attempt from `attempt ≥ 1` on is retriable, the loop runs
out of fuel and returns the exhausted error carrying the configured
`maxRetries` and the cause recorded on the last attempt. -/
theorem fetchLoop_exhausted (mr d : Nat) (o : Nat → AttemptOutcome) :
    ∀ (fuel attempt : Nat) (le : Option FetchErrCause) (slept : Nat),
      1 ≤ attempt → 1 ≤ fuel →
      (∀ j, j < fuel → retriableOutcome (o (attempt + j)) = true) →
      fetchLoop mr d o fuel attempt le slept =
        ⟨.exhausted mr (some (causeOf (o (attempt + fuel - 1)))), attempt + fuel,
          slept + d * fuel
            + d * ((List.range' attempt fuel).countP (fun j => extraSleepOutcome (o j)))⟩ := by
  intro fuel
  induction fuel with
  | zero =>
    intro attempt le slept _ hf _
    omega
  | succ fuel ih =>
    intro attempt le slept h1 _hf hr
    have hr0 : retriableOutcome (o attempt) = true := by
      have := hr 0 (by omega)
      simpa using this
    have hpos : 0 < attempt := h1
    rw [fetchLoop]
    cases fuel with
    | zero =>
      cases hoa : o attempt with
      | netError e =>
        dsimp only
        rw [fetchLoop, if_pos hpos]
        rw [List.range'_succ, show List.range' (attempt + 1) 0 = [] from rfl]
        simp [causeOf, extraSleepOutcome, hoa]
      | response s0 =>
        dsimp only
        have hretr : (s0 < 200 ∨ 300 ≤ s0) ∧ (s0 < 400 ∨ 500 ≤ s0) := by
          rw [hoa] at hr0
          simpa [retriableOutcome] using hr0
        have h2 : ¬(200 ≤ s0 ∧ s0 < 300) := by omega
        have h4 : ¬(400 ≤ s0 ∧ s0 < 500) := by omega
        rw [if_neg h2, if_neg h4, fetchLoop, if_pos hpos]
        rw [List.range'_succ, show List.range' (attempt + 1) 0 = [] from rfl]
        by_cases h5 : 500 ≤ s0 <;>
          simp [causeOf, extraSleepOutcome, hoa, h5]
    | succ f =>
      have hrest : ∀ j, j < f + 1 → retriableOutcome (o (attempt + 1 + j)) = true := by
        intro j hj
        have := hr (j + 1) (by omega)
        simpa [Nat.add_assoc, Nat.add_comm 1 j] using this
      cases hoa : o attempt with
      | netError e =>
        dsimp only
        rw [ih (attempt + 1) (some (.net e)) _ (by omega) (by omega) hrest]
        rw [if_pos hpos]
        have hlast : attempt + 1 + (f + 1) - 1 = attempt + (f + 1 + 1) - 1 := by omega
        rw [hlast]
        refine congrArg₂ _ (by omega) ?_
        rw [List.range'_succ attempt (f + 1) 1, List.countP_cons]
        simp [extraSleepOutcome, hoa]
        ring
      | response s0 =>
        dsimp only
        have hretr : (s0 < 200 ∨ 300 ≤ s0) ∧ (s0 < 400 ∨ 500 ≤ s0) := by
          rw [hoa] at hr0
          simpa [retriableOutcome] using hr0
        have h2 : ¬(200 ≤ s0 ∧ s0 < 300) := by omega
        have h4 : ¬(400 ≤ s0 ∧ s0 < 500) := by omega
        rw [if_neg h2, if_neg h4]
        rw [ih (attempt + 1) (some (.server s0)) _ (by omega) (by omega) hrest]
        rw [if_pos hpos]
        have hlast : attempt + 1 + (f + 1) - 1 = attempt + (f + 1 + 1) - 1 := by omega
        rw [hlast]
        refine congrArg₂ _ (by omega) ?_
        rw [List.range'_succ attempt (f + 1) 1, List.countP_cons]
        by_cases h5 : 500 ≤ s0 <;>
          simp [extraSleepOutcome, hoa, h5] <;> ring

/-- C4: `FetchWithRetry` makes at most `maxRetries + 1` attempts.  With
every earlier attempt retriable (network error or non-2xx/non-4xx
status), a 2xx response at attempt `k` is returned immediately and a 4xx
response is terminal at attempt `k`, after one fixed delay per retry plus
one extra delay per retried 5xx response; and when every attempt is
retriable, the returned error carries the configured retry count `mr`
together with the last observed cause. -/
theorem FetchWithRetry_spec (mr d : Nat) (o : Nat → AttemptOutcome) :
    (FetchWithRetry mr d o).attemptsMade ≤ mr + 1
    ∧ (∀ k s, k ≤ mr → (∀ j, j < k → retriableOutcome (o j) = true) →
        o k = .response s →
        ((200 ≤ s ∧ s < 300 →
            FetchWithRetry mr d o = ⟨.ok s, k + 1, d * k + d * extraCountBelow o k⟩)
          ∧ (400 ≤ s ∧ s < 500 →
            FetchWithRetry mr d o
              = ⟨.clientError s, k + 1, d * k + d * extraCountBelow o k⟩)))
    ∧ ((∀ j, j ≤ mr → retriableOutcome (o j) = true) →
        FetchWithRetry mr d o
          = ⟨.exhausted mr (some (causeOf (o mr))), mr + 1,
              d * mr + d * extraCountBelow o (mr + 1)⟩) := by
  refine ⟨?_, ?_, ?_⟩
  · simpa using fetchLoop_attempts_le mr d o (mr + 1) 0 none 0
  · intro k s hk hr ho
    have key : (200 ≤ s ∧ s < 300) ∨ (400 ≤ s ∧ s < 500) →
        FetchWithRetry mr d o
          = ⟨if 200 ≤ s ∧ s < 300 then .ok s else .clientError s, k + 1,
              d * k + d * extraCountBelow o k⟩ := by
      intro hs
      unfold FetchWithRetry
      cases k with
      | zero =>
        rw [fetchLoop, ho]
        dsimp only
        rcases hs with h2 | h4
        · rw [if_pos h2, if_pos h2]
          simp [extraCountBelow]
        · have h2 : ¬(200 ≤ s ∧ s < 300) := by omega
          rw [if_neg h2, if_neg h2, if_pos h4]
          simp [extraCountBelow]
      | succ k =>
        have hrest : ∀ j, j < k → retriableOutcome (o (1 + j)) = true := by
          intro j hj
          have := hr (j + 1) (by omega)
          simpa [Nat.add_comm 1 j] using this
        have ho1 : o (1 + k) = .response s := by
          rw [Nat.add_comm 1 k]
          exact ho
        rw [fetchLoop]
        cases hoa : o 0 with
        | netError e =>
          dsimp only
          rw [fetchLoop_terminal mr d o k mr 1 (some (.net e)) _ s (by omega) (by omega)
            hrest ho1 hs]
          rw [if_neg (by omega : ¬(0:Nat) < 0)]
          refine congrArg₂ _ (by omega) ?_
          rw [extraCountBelow, List.range_eq_range', List.range'_succ 0 k 1,
            List.countP_cons]
          simp [extraSleepOutcome, hoa]
        | response s0 =>
          dsimp only
          have hr0 := hr 0 (by omega)
          have hretr : (s0 < 200 ∨ 300 ≤ s0) ∧ (s0 < 400 ∨ 500 ≤ s0) := by
            rw [hoa] at hr0
            simpa [retriableOutcome] using hr0
          have h2 : ¬(200 ≤ s0 ∧ s0 < 300) := by omega
          have h4 : ¬(400 ≤ s0 ∧ s0 < 500) := by omega
          rw [if_neg h2, if_neg h4]
          rw [fetchLoop_terminal mr d o k mr 1 (some (.server s0)) _ s (by omega) (by omega)
            hrest ho1 hs]
          rw [if_neg (by omega : ¬(0:Nat) < 0)]
          refine congrArg₂ _ (by omega) ?_
          rw [extraCountBelow, List.range_eq_range', List.range'_succ 0 k 1,
            List.countP_cons]
          by_cases h5 : 500 ≤ s0 <;>
            simp [extraSleepOutcome, hoa, h5] <;> ring
    constructor
    · intro h2
      rw [key (Or.inl h2), if_pos h2]
    · intro h4
      have h2 : ¬(200 ≤ s ∧ s < 300) := by omega
      rw [key (Or.inr h4), if_neg h2]
  · intro hr
    unfold FetchWithRetry
    cases mr with
    | zero =>
      have h1 := hr 0 (by omega)
      rw [fetchLoop]
      cases hoa : o 0 with
      | netError e =>
        dsimp only
        rw [fetchLoop]
        simp [extraCountBelow, causeOf, extraSleepOutcome, hoa]
      | response s0 =>
        dsimp only
        have hretr : (s0 < 200 ∨ 300 ≤ s0) ∧ (s0 < 400 ∨ 500 ≤ s0) := by
          rw [hoa] at h1
          simpa [retriableOutcome] using h1
        have h2 : ¬(200 ≤ s0 ∧ s0 < 300) := by omega
        have h4 : ¬(400 ≤ s0 ∧ s0 < 500) := by omega
        rw [if_neg h2, if_neg h4, fetchLoop]
        by_cases h5 : 500 ≤ s0 <;>
          simp [extraCountBelow, causeOf, extraSleepOutcome, hoa, h5,
            show List.range 1 = [0] from rfl, List.countP_cons, List.countP_nil]
    | succ m =>
      have hrest : ∀ j, j < m + 1 → retriableOutcome (o (1 + j)) = true := by
        intro j hj
        have := hr (j + 1) (by omega)
        simpa [Nat.add_comm 1 j] using this
      have h1 := hr 0 (by omega)
      rw [fetchLoop]
      cases hoa : o 0 with
      | netError e =>
        dsimp only
        rw [fetchLoop_exhausted (m + 1) d o (m + 1) 1 (some (.net e)) _ (by omega)
          (by omega) hrest]
        rw [if_neg (by omega : ¬(0:Nat) < 0)]
        rw [show 1 + (m + 1) - 1 = m + 1 from by omega]
        refine congrArg₂ _ (by omega) ?_
        rw [extraCountBelow, List.range_eq_range', List.range'_succ 0 (m + 1) 1,
          List.countP_cons]
        simp [extraSleepOutcome, hoa]
      | response s0 =>
        dsimp only
        have hretr : (s0 < 200 ∨ 300 ≤ s0) ∧ (s0 < 400 ∨ 500 ≤ s0) := by
          rw [hoa] at h1
          simpa [retriableOutcome] using h1
        have h2 : ¬(200 ≤ s0 ∧ s0 < 300) := by omega
        have h4 : ¬(400 ≤ s0 ∧ s0 < 500) := by omega
        rw [if_neg h2, if_neg h4]
        rw [fetchLoop_exhausted (m + 1) d o (m + 1) 1 (some (.server s0)) _ (by omega)
          (by omega) hrest]
        rw [if_neg (by omega : ¬(0:Nat) < 0)]
        rw [show 1 + (m + 1) - 1 = m + 1 from by omega]
        refine congrArg₂ _ (by omega) ?_
        rw [extraCountBelow, List.range_eq_range', List.range'_succ 0 (m + 1) 1,
          List.countP_cons]
        by_cases h5 : 500 ≤ s0 <;>
          simp [extraSleepOutcome, hoa, h5] <;> ring

/-- Closed witness for `FetchWithRetry_spec`: a retried 503 (with extra
delay) followed by a terminal 404 at attempt 1 of a 3-attempt budget. -/
theorem FetchWithRetry_spec_witness :
    FetchWithRetry 2 5 retryOutcomeFixture = ⟨.clientError 404, 2, 10⟩ := by
  have h := ((FetchWithRetry_spec 2 5 retryOutcomeFixture).2.1 1 404 (by omega)
    (by
      intro j hj
      have hj0 : j = 0 := by omega
      subst hj0
      decide) rfl).2 (by omega)
  exact h.trans (by decide)

/-- C3: a response whose declared content type contains `text/html`
(case-insensitively), or whose peeked body prefix — white space trimmed,
lower-cased — begins with `<!doctype html` or `<html`, fails the attempt
with nothing written: the `.part` and final files are untouched; and
whenever the status itself was acceptable, the error is precisely the
HTML-payload error. -/
theorem downloadFileAttempt_html_rejected (resp : DownloadResponse) (partSize : Int)
    (fs : PartFS)
    (hhtml : strContainsSub ⟨resp.contentType.data.map lowerChar⟩ "text/html" = true
      ∨ (asciiBytes "<!doctype html").isPrefixOf
          ((trimSpaceBytes (resp.body.take 512)).map toLowerByte) = true
      ∨ (asciiBytes "<html").isPrefixOf
          ((trimSpaceBytes (resp.body.take 512)).map toLowerByte) = true) :
    (∃ e, downloadFileAttempt resp partSize fs = (.error e, fs)) ∧
    (isValidDownloadStatus resp.status partSize = true →
      downloadFileAttempt resp partSize fs
        = (.error "unexpected HTML response body (possible auth failure or expired link)",
            fs)) := by
  have hpayload : isHTMLPayload resp.contentType (resp.body.take 512) = true := by
    rcases hhtml with h | h | h
    · simp [isHTMLPayload, h]
    · simp [isHTMLPayload, h]
    · simp [isHTMLPayload, h]
  constructor
  · by_cases hst : isValidDownloadStatus resp.status partSize = true
    · refine ⟨"unexpected HTML response body (possible auth failure or expired link)", ?_⟩
      simp [downloadFileAttempt, hst, hpayload]
    · have hst1 : isValidDownloadStatus resp.status partSize = false := by
        simpa using hst
      refine ⟨"unexpected status " ++ toString resp.status, ?_⟩
      simp [downloadFileAttempt, hst1]
  · intro hst
    simp [downloadFileAttempt, hst, hpayload]

/-- Closed witness for `downloadFileAttempt_html_rejected`: an HTML login
page under a binary content type is rejected and nothing is written. -/
theorem downloadFileAttempt_html_witness :
    downloadFileAttempt htmlResponse 0 ⟨none, none⟩
      = (.error "unexpected HTML response body (possible auth failure or expired link)",
          ⟨none, none⟩) :=
  (downloadFileAttempt_html_rejected htmlResponse 0 ⟨none, none⟩
    (Or.inr (Or.inr (by decide)))).2 (by decide)

/-- C1: a ranged attempt with resume offset `N > 0` answered by a plain
`200 OK` with an `M`-byte body forces the effective offset to zero: the
`.part` file is truncated and rewritten to exactly the body (never the
`N + M`-byte concatenation), the expected total is re-read as for a fresh
download, a known total that disagrees with `M` fails the attempt, and a
successful attempt finalises a file of exactly `M` bytes. -/
theorem downloadFileAttempt_full200_restart (resp : DownloadResponse) (fs : PartFS)
    (t : List Nat) (N M : Nat)
    (ht : fs.tmpFile = some t) (hN : t.length = N) (hNpos : 0 < N)
    (hstatus : resp.status = 200) (hM : resp.body.length = M)
    (hnohtml : isHTMLPayload resp.contentType (resp.body.take 512) = false) :
    (match extractFileSize resp.contentLength resp.contentRange 0 with
     | .error e => downloadFileAttempt resp (N : Int) fs = (.error e, fs)
     | .ok (total, true) =>
       if (M : Int) = total then
         downloadFileAttempt resp (N : Int) fs = (.ok (), ⟨none, some resp.body⟩)
       else
         downloadFileAttempt resp (N : Int) fs
           = (.error ("download incomplete: " ++ toString resp.body.length ++ " != "
               ++ toString total), { fs with tmpFile := some resp.body })
     | .ok (_, false) =>
       downloadFileAttempt resp (N : Int) fs = (.ok (), ⟨none, some resp.body⟩)) ∧
    M ≠ N + M := by
  have hNlt : (0 : Int) < (N : Int) := by exact_mod_cast hNpos
  have hvalid : isValidDownloadStatus resp.status ((N : Int)) = true := by
    rw [hstatus]
    have hN0 : ((N : Int)) ≠ 0 := by omega
    simp [isValidDownloadStatus, hN0]
  refine ⟨?_, by omega⟩
  unfold downloadFileAttempt
  rw [hvalid]
  simp only [Bool.not_true, Bool.false_eq_true, if_false, hnohtml]
  rw [if_pos ⟨hNlt, hstatus⟩]
  rcases hext : extractFileSize resp.contentLength resp.contentRange 0 with e | ⟨total, hasTotal⟩
  · dsimp only
  · cases hasTotal with
    | true =>
      dsimp only
      by_cases hMt : (M : Int) = total
      · rw [if_pos hMt]
        simp [hM, hMt]
      · rw [if_neg hMt]
        simp [hM, hMt]
    | false =>
      dsimp only
      simp

/-- Closed witness for `downloadFileAttempt_full200_restart`: a 3-byte
`.part` file plus a 200 response with a 5-byte body and a matching
`Content-Length` ends with exactly the 5 body bytes. -/
theorem downloadFileAttempt_full200_witness :
    downloadFileAttempt resumedResponse ((3 : Nat) : Int) ⟨some [9, 9, 9], none⟩
      = (.ok (), ⟨none, some [10, 20, 30, 40, 50]⟩) ∧ (5 : Nat) ≠ 3 + 5 := by
  have h := downloadFileAttempt_full200_restart resumedResponse ⟨some [9, 9, 9], none⟩
    [9, 9, 9] 3 5 rfl rfl (by decide) rfl rfl (by decide)
  exact ⟨h.1, h.2⟩

/-- C2: with a nonzero final file whose fresh digest validates against
the remote-declared size/MD5 and agrees with any stored sidecar digest,
`downloadFile` refreshes the sidecar and skips the download loop — no
network request is made; while a digest failing remote validation, or
disagreeing with a stored sidecar digest, deletes both the final file and
the sidecar and falls through to a re-download. -/
theorem downloadFileGate_spec (md5fn : List Nat → String) (fs : GofileFS)
    (file : gofileRemoteFile) (content : List Nat)
    (hfile : fs.finalFile = some content) (hne : content ≠ []) :
    (validateDigestAgainstRemote (computeFileDigest md5fn content) file = .ok () →
      (∀ sd, fs.sidecar = .stored sd →
        sd.size = (computeFileDigest md5fn content).size
          ∧ eqFold sd.md5 (computeFileDigest md5fn content).md5 = true) →
      fs.sidecar ≠ .invalid →
      downloadFileGate md5fn fs file
        = (.skipVerified, ⟨some content, .stored (computeFileDigest md5fn content)⟩))
    ∧ (validateDigestAgainstRemote (computeFileDigest md5fn content) file ≠ .ok () →
      downloadFileGate md5fn fs file = (.redownload, ⟨none, .absent⟩))
    ∧ (∀ sd, fs.sidecar = .stored sd →
      (sd.size ≠ (computeFileDigest md5fn content).size
        ∨ eqFold sd.md5 (computeFileDigest md5fn content).md5 = false) →
      downloadFileGate md5fn fs file = (.redownload, ⟨none, .absent⟩)) := by
  obtain ⟨ff, sc⟩ := fs
  have hff : ff = some content := hfile
  subst hff
  have hlen : ¬ content.length = 0 := by
    intro h
    exact hne (List.length_eq_zero.mp h)
  refine ⟨?_, ?_, ?_⟩
  · intro hval hsd hinv
    unfold downloadFileGate verifyAndMaybeSkipExistingFile
    dsimp only
    rw [if_neg hlen, hval]
    cases sc with
    | absent => rfl
    | invalid => exact absurd rfl hinv
    | stored sd =>
      obtain ⟨h1, h2⟩ := hsd sd rfl
      have hcond : ¬(sd.size ≠ (computeFileDigest md5fn content).size
          ∨ (!eqFold sd.md5 (computeFileDigest md5fn content).md5) = true) := by
        simp [h1, h2]
      dsimp only
      rw [if_neg hcond]
  · intro hval
    rcases hv : validateDigestAgainstRemote (computeFileDigest md5fn content) file
      with e | u
    · unfold downloadFileGate verifyAndMaybeSkipExistingFile
      dsimp only
      rw [if_neg hlen, hv]
    · cases u
      exact absurd hv hval
  · intro sd hsc hmis
    have hscc : sc = .stored sd := hsc
    subst hscc
    unfold downloadFileGate verifyAndMaybeSkipExistingFile
    dsimp only
    rw [if_neg hlen]
    rcases hv : validateDigestAgainstRemote (computeFileDigest md5fn content) file
      with e | u
    · rfl
    · cases u
      have hcond : (sd.size ≠ (computeFileDigest md5fn content).size
          ∨ (!eqFold sd.md5 (computeFileDigest md5fn content).md5) = true) := by
        rcases hmis with h | h
        · exact Or.inl h
        · exact Or.inr (by simp [h])
      dsimp only
      rw [if_pos hcond]

/-- Closed witness for `downloadFileGate_spec`: a verified existing file
with no prior sidecar is skipped and its sidecar is written. -/
theorem downloadFileGate_spec_witness :
    downloadFileGate md5Fixture ⟨some [1, 2], .absent⟩ ⟨2, "1-2-"⟩
      = (.skipVerified, ⟨some [1, 2], .stored (computeFileDigest md5Fixture [1, 2])⟩) := by
  exact (downloadFileGate_spec md5Fixture ⟨some [1, 2], .absent⟩ ⟨2, "1-2-"⟩ [1, 2]
    rfl (by decide)).1 rfl
    (by intro sd hsd; cases hsd)
    (by decide)

end North2MD
